import Mathlib

/-!
Verification development for a CHIP-8 emulator written in Rust
(sources: src/chip8/cpu.rs, src/chip8/opcodes.rs, src/chip8/registers.rs,
src/main.rs).

The Rust code is shallowly embedded: machine integers (u8, u16, usize) become
Nat with explicit `% 256` / `% 65536` wherever Rust wrapping arithmetic occurs;
fallible operations (Rust panics: `unwrap`, `expect`, out-of-bounds indexing,
`panic!` in the decoder) become `Option` with `none` standing for the fatal
stop; the Vec-based call stack (push-back / pop-back, a LIFO) is embedded as a
Lean list with cons for push and head for pop; the external display/input
surface and the random generator are parameters gathered in an `Env` record.
-/

namespace Chip8

/-- Register operand of an instruction: `VxyRegister(u8)` in opcodes.rs is the
register index, kept as a plain Nat here. -/
abbrev VReg := Nat

/-- Mirrors `Either<VxyRegister, u8>` from opcodes.rs: the second operand of
SE/SNE/ADD/LD is either a register (Either::Left) or an immediate byte
(Either::Right). -/
inductive RegOrByte where
  | reg (r : VReg)
  | byte (b : Nat)
  deriving DecidableEq, Repr

/-- The instruction set: the `Instruction` enum of opcodes.rs, one constructor
per variant with the same payloads (addresses and bytes as Nat). -/
inductive Instruction where
  | SYS (addr : Nat)
  | CLS
  | RET
  | JP (addr : Nat)
  | JP_V0 (addr : Nat)
  | CALL (addr : Nat)
  | SE (vx : VReg) (other : RegOrByte)
  | SNE (vx : VReg) (other : RegOrByte)
  | ADD (vx : VReg) (other : RegOrByte)
  | ADD_I (vx : VReg)
  | SUB (vx : VReg) (vy : VReg)
  | SUBN (vx : VReg) (vy : VReg)
  | OR (vx : VReg) (vy : VReg)
  | AND (vx : VReg) (vy : VReg)
  | XOR (vx : VReg) (vy : VReg)
  | SHR (vx : VReg)
  | SHL (vx : VReg)
  | RND (vx : VReg) (byte : Nat)
  | DRW (vx : VReg) (vy : VReg) (nibble : Nat)
  | SKP (vx : VReg)
  | SKNP (vx : VReg)
  | LD (vx : VReg) (other : RegOrByte)
  | LD_I (addr : Nat)
  | LD_Vx_DT (vx : VReg)
  | LD_Vx_K (vx : VReg)
  | LD_DT_Vx (vx : VReg)
  | LD_ST_Vx (vx : VReg)
  | LD_F (vx : VReg)
  | LD_B (vx : VReg)
  | LD_I_Vx (vx : VReg)
  | LD_Vx_I (vx : VReg)
  deriving DecidableEq, Repr

/-- opcodes.rs `get_first`: high nibble `(bytes >> 12)` of a 16-bit opcode. -/
def get_first (bytes : Nat) : Nat := bytes / 4096 % 16

/-- opcodes.rs `get_addr`: low 12 bits `bytes & 0x0FFF`. -/
def get_addr (bytes : Nat) : Nat := bytes % 4096

/-- opcodes.rs `get_vx`: bits 8..11, `(bytes & 0x0F00) >> 8`. -/
def get_vx (bytes : Nat) : VReg := bytes / 256 % 16

/-- opcodes.rs `get_vy`: bits 4..7, `(bytes & 0x00F0) >> 4`. -/
def get_vy (bytes : Nat) : VReg := bytes / 16 % 16

/-- opcodes.rs `get_nibble`: low nibble `bytes & 0x000F`. -/
def get_nibble (bytes : Nat) : Nat := bytes % 16

/-- opcodes.rs `get_byte`: low byte `bytes & 0x00FF`. -/
def get_byte (bytes : Nat) : Nat := bytes % 256

/-- cpu.rs `CHIP8::decode_instruction`. The Rust function matches on the high
nibble and, for families 0x8/0xE/0xF, on the low nibble or the low byte
(`to_be_bytes()[1]`, i.e. the low byte); the `panic!("Unrecognized OP Code")`
arms become `none`. Family 0x0 returns CLS for 0x00E0, RET for 0x00EE and
SYS(addr) for everything else — it has no panic arm. -/
def decode_instruction (bytes : Nat) : Option Instruction :=
  if get_first bytes = 0x0 then
    if bytes = 0x00E0 then some .CLS
    else if bytes = 0x00EE then some .RET
    else some (.SYS (get_addr bytes))
  else if get_first bytes = 0x1 then some (.JP (get_addr bytes))
  else if get_first bytes = 0x2 then some (.CALL (get_addr bytes))
  else if get_first bytes = 0x3 then some (.SE (get_vx bytes) (.byte (get_byte bytes)))
  else if get_first bytes = 0x4 then some (.SNE (get_vx bytes) (.byte (get_byte bytes)))
  else if get_first bytes = 0x5 then some (.SE (get_vx bytes) (.reg (get_vy bytes)))
  else if get_first bytes = 0x6 then some (.LD (get_vx bytes) (.byte (get_byte bytes)))
  else if get_first bytes = 0x7 then some (.ADD (get_vx bytes) (.byte (get_byte bytes)))
  else if get_first bytes = 0x8 then
    if get_nibble bytes = 0x0 then some (.LD (get_vx bytes) (.reg (get_vy bytes)))
    else if get_nibble bytes = 0x1 then some (.OR (get_vx bytes) (get_vy bytes))
    else if get_nibble bytes = 0x2 then some (.AND (get_vx bytes) (get_vy bytes))
    else if get_nibble bytes = 0x3 then some (.XOR (get_vx bytes) (get_vy bytes))
    else if get_nibble bytes = 0x4 then some (.ADD (get_vx bytes) (.reg (get_vy bytes)))
    else if get_nibble bytes = 0x5 then some (.SUB (get_vx bytes) (get_vy bytes))
    else if get_nibble bytes = 0x6 then some (.SHR (get_vx bytes))
    else if get_nibble bytes = 0x7 then some (.SUBN (get_vx bytes) (get_vy bytes))
    else if get_nibble bytes = 0xE then some (.SHL (get_vx bytes))
    else none
  else if get_first bytes = 0x9 then some (.SNE (get_vx bytes) (.reg (get_vy bytes)))
  else if get_first bytes = 0xA then some (.LD_I (get_addr bytes))
  else if get_first bytes = 0xB then some (.JP_V0 (get_addr bytes))
  else if get_first bytes = 0xC then some (.RND (get_vx bytes) (get_byte bytes))
  else if get_first bytes = 0xD then some (.DRW (get_vx bytes) (get_vy bytes) (get_nibble bytes))
  else if get_first bytes = 0xE then
    if get_byte bytes = 0x9E then some (.SKP (get_vx bytes))
    else if get_byte bytes = 0xA1 then some (.SKNP (get_vx bytes))
    else none
  else if get_first bytes = 0xF then
    if get_byte bytes = 0x07 then some (.LD_Vx_DT (get_vx bytes))
    else if get_byte bytes = 0x0A then some (.LD_Vx_K (get_vx bytes))
    else if get_byte bytes = 0x15 then some (.LD_DT_Vx (get_vx bytes))
    else if get_byte bytes = 0x18 then some (.LD_ST_Vx (get_vx bytes))
    else if get_byte bytes = 0x1E then some (.ADD_I (get_vx bytes))
    else if get_byte bytes = 0x29 then some (.LD_F (get_vx bytes))
    else if get_byte bytes = 0x33 then some (.LD_B (get_vx bytes))
    else if get_byte bytes = 0x55 then some (.LD_I_Vx (get_vx bytes))
    else if get_byte bytes = 0x65 then some (.LD_Vx_I (get_vx bytes))
    else none
  else none

/-- opcodes.rs `to_bcd`: ones = byte % 10, tens = (byte % 100) / 10,
hundreds = (byte - ones - tens) / 100 (Nat subtraction is exact here since
ones + tens ≤ byte). -/
def to_bcd (byte : Nat) : List Nat :=
  let ones := byte % 10
  let tens := byte % 100 / 10
  let hundreds := (byte - ones - tens) / 100
  [hundreds, tens, ones]

/-- Rust `u8::trailing_ones`, embedded by peeling the 8 bits from the bottom. -/
def trailingOnesAux : Nat → Nat → Nat
  | 0, _ => 0
  | k + 1, x => if x % 2 = 1 then trailingOnesAux k (x / 2) + 1 else 0

/-- `u8::trailing_ones` on a byte value. -/
def u8_trailing_ones (x : Nat) : Nat := trailingOnesAux 8 x

/-- Rust `u8::leading_ones`, embedded by peeling the 8 bits from the top
(bit 7 first, then shifting the remaining bits up). -/
def leadingOnesAux : Nat → Nat → Nat
  | 0, _ => 0
  | k + 1, x => if x / 128 % 2 = 1 then leadingOnesAux k (x % 128 * 2) + 1 else 0

/-- `u8::leading_ones` on a byte value. -/
def u8_leading_ones (x : Nat) : Nat := leadingOnesAux 8 x

/-- registers.rs `Registers`: PC (usize), SP (u8), I (u16), the 16 general
registers Vx (u8 each, as a 16-element list), and the two timers DT/ST. In
the Rust code DT/ST are `Arc<AtomicU8>` cells shared with the timer threads;
for the engine's own instructions they are plain byte values here (the
concurrent tick process is modelled separately by `TimerCell`). -/
structure Registers where
  PC : Nat
  SP : Nat
  I : Nat
  Vx : List Nat
  DT : Nat
  ST : Nat
  deriving DecidableEq, Repr

/-- cpu.rs `CHIP8`: call stack (Vec<u16>, embedded as a list whose head is the
top of the stack), 0xFFF-byte RAM, and the register file. The `Display` field
is external and carries no modelled state. -/
structure CHIP8 where
  stack : List Nat
  ram : List Nat
  reg : Registers
  deriving DecidableEq, Repr

/-- cpu.rs `SPRITES`: the 80 bytes of built-in glyph sprites. -/
def SPRITES : List Nat :=
  [0xF0, 0x90, 0x90, 0x90, 0xF0,
   0x20, 0x60, 0x20, 0x20, 0x70,
   0xF0, 0x10, 0xF0, 0x80, 0xF0,
   0xF0, 0x10, 0xF0, 0x10, 0xF0,
   0x90, 0x90, 0xF0, 0x10, 0x10,
   0xF0, 0x80, 0xF0, 0x10, 0xF0,
   0xF0, 0x80, 0xF0, 0x90, 0xF0,
   0xF0, 0x10, 0x20, 0x40, 0x40,
   0xF0, 0x90, 0xF0, 0x90, 0xF0,
   0xF0, 0x90, 0xF0, 0x10, 0xF0,
   0xF0, 0x90, 0xF0, 0x90, 0x90,
   0xE0, 0x90, 0xE0, 0x90, 0xE0,
   0xF0, 0x80, 0x80, 0x80, 0xF0,
   0xE0, 0x90, 0x90, 0x90, 0xE0,
   0xF0, 0x80, 0xF0, 0x80, 0xF0,
   0xF0, 0x80, 0xF0, 0x80, 0x80]

/-- cpu.rs `CHIP8::new`: RAM is 0xFFF zero bytes with the sprites cloned into
the first 80; the stack starts empty (`Vec::with_capacity(16)` only reserves
allocation, the Vec itself is empty and unbounded); registers from
`Registers::new`: PC = 0x200, SP = 0, I = 0, Vx all zero, timers zero. -/
def CHIP8.fresh : CHIP8 :=
  { stack := []
    ram := SPRITES ++ List.replicate (0xFFF - 80) 0
    reg := { PC := 0x200, SP := 0, I := 0, Vx := List.replicate 16 0, DT := 0, ST := 0 } }

/-- The external display/input surface and RNG consumed by one execution step:
window-open flag, per-key-code key-down state, the random byte drawn by RND,
the collision bit returned by the display's `set_pixels`, and the key value
the LD_Vx_K busy-wait loop eventually stores (none when the window closes
before a mappable key press, leaving the register unchanged). -/
structure Env where
  windowOpen : Bool
  keyDown : Nat → Bool
  rand : Nat
  drawCollision : Bool
  keyWait : Option Nat

/-- cpu.rs `CHIP8::get_vx_val` (the `unwrap` never fails: the register index
comes from a 4-bit field). -/
def getVxVal (m : CHIP8) (r : VReg) : Nat := m.reg.Vx.getD r 0

/-- cpu.rs `CHIP8::set_vx_val`. -/
def setVxVal (m : CHIP8) (r : VReg) (v : Nat) : CHIP8 :=
  { m with reg := { m.reg with Vx := m.reg.Vx.set r v } }

/-- The second operand of SE/SNE/ADD/LD: a register read or the immediate. -/
def readOperand (m : CHIP8) : RegOrByte → Nat
  | .reg r => getVxVal m r
  | .byte b => b

/-- Body shared by SUB and SUBN (cpu.rs implements SUBN by recursively calling
`execute_instruction(Instruction::SUB(vy, vx))`): `overflowing_sub` stores the
wrapped difference in vx, then writes `!borrow` (1 on no borrow) to VF. -/
def execSUB (m : CHIP8) (vx vy : VReg) : CHIP8 :=
  let val1 := getVxVal m vx
  let val2 := getVxVal m vy
  let diff := (val1 + 256 - val2) % 256
  let noBorrow : Nat := if val1 < val2 then 0 else 1
  setVxVal (setVxVal m vx diff) 0xF noBorrow

/-- cpu.rs `CHIP8::execute_instruction`. Fatal panics become `none`: RET's
`stack.pop().unwrap()` on an empty stack, SKP/SKNP's `expect` on an unmappable
key value (map_u8_to_key is `some` exactly on 0..=15), LD_F's `expect` on a
sprite index above 0xF, and out-of-bounds RAM indexing/slicing in DRW, LD_B,
LD_I_Vx and LD_Vx_I. CALL performs no capacity check (`Vec::push` grows the
vector); `SP += 1` and `SP.wrapping_sub(1)` are u8 arithmetic, kept mod 256.
Display calls (clear/update_buffer/set_pixels) affect only external state;
set_pixels' collision result comes from the environment. -/
def execute (env : Env) (m : CHIP8) : Instruction → Option CHIP8
  | .SYS _ => some m
  | .CLS => some m
  | .RET =>
    match m.stack with
    | [] => none
    | p :: rest =>
      some { m with stack := rest,
                    reg := { m.reg with PC := p, SP := (m.reg.SP + 255) % 256 } }
  | .JP addr => some { m with reg := { m.reg with PC := addr } }
  | .JP_V0 addr => some { m with reg := { m.reg with PC := addr + getVxVal m 0 } }
  | .CALL addr =>
    some { m with stack := m.reg.PC % 65536 :: m.stack,
                  reg := { m.reg with SP := (m.reg.SP + 1) % 256, PC := addr } }
  | .SE vx other =>
    let val1 := getVxVal m vx
    let val2 := readOperand m other
    some (if val1 = val2 then { m with reg := { m.reg with PC := m.reg.PC + 2 } } else m)
  | .SNE vx other =>
    let val1 := getVxVal m vx
    let val2 := readOperand m other
    some (if val1 ≠ val2 then { m with reg := { m.reg with PC := m.reg.PC + 2 } } else m)
  | .ADD vx other =>
    let val1 := getVxVal m vx
    let val2 := readOperand m other
    let sum := val1 + val2
    let carry : Nat := if 256 ≤ sum then 1 else 0
    some (setVxVal (setVxVal m vx (sum % 256)) 0xF carry)
  | .ADD_I vx => some { m with reg := { m.reg with I := (m.reg.I + getVxVal m vx) % 65536 } }
  | .SUB vx vy => some (execSUB m vx vy)
  | .SUBN vx vy => some (execSUB m vy vx)
  | .OR vx vy => some (setVxVal m vx (getVxVal m vx ||| getVxVal m vy))
  | .AND vx vy => some (setVxVal m vx (getVxVal m vx &&& getVxVal m vy))
  | .XOR vx vy => some (setVxVal m vx (getVxVal m vx ^^^ getVxVal m vy))
  | .SHR vx =>
    let val1 := getVxVal m vx
    let flag : Nat := if 0 < u8_trailing_ones val1 then 1 else 0
    some (setVxVal (setVxVal m 0xF flag) vx (val1 / 2))
  | .SHL vx =>
    let val1 := getVxVal m vx
    let flag : Nat := if 0 < u8_leading_ones val1 then 1 else 0
    some (setVxVal (setVxVal m 0xF flag) vx (val1 * 2 % 256))
  | .RND vx byte => some (setVxVal m vx (env.rand % 256 &&& byte))
  | .DRW _ _ nibble =>
    if m.reg.I + nibble ≤ m.ram.length then
      some (setVxVal m 0xF (if env.drawCollision then 1 else 0))
    else none
  | .SKP vx =>
    let val := getVxVal m vx
    if val ≤ 0xF then
      some (if env.keyDown val then { m with reg := { m.reg with PC := m.reg.PC + 2 } } else m)
    else none
  | .SKNP vx =>
    let val := getVxVal m vx
    if val ≤ 0xF then
      some (if env.keyDown val then m else { m with reg := { m.reg with PC := m.reg.PC + 2 } })
    else none
  | .LD vx other => some (setVxVal m vx (readOperand m other))
  | .LD_I addr => some { m with reg := { m.reg with I := addr } }
  | .LD_Vx_DT vx => some (setVxVal m vx m.reg.DT)
  | .LD_Vx_K vx =>
    match env.keyWait with
    | some v => some (setVxVal m vx v)
    | none => some m
  | .LD_DT_Vx vx => some { m with reg := { m.reg with DT := getVxVal m vx } }
  | .LD_ST_Vx vx => some { m with reg := { m.reg with ST := getVxVal m vx } }
  | .LD_F vx =>
    let val := getVxVal m vx
    if val ≤ 0xF then some { m with reg := { m.reg with I := val * 5 } } else none
  | .LD_B vx =>
    let bcd := to_bcd (getVxVal m vx)
    if m.reg.I + 2 < m.ram.length then
      some { m with ram := ((m.ram.set m.reg.I (bcd.getD 0 0)).set (m.reg.I + 1)
               (bcd.getD 1 0)).set (m.reg.I + 2) (bcd.getD 2 0) }
    else none
  | .LD_I_Vx vx =>
    if m.reg.I + vx < m.ram.length then
      some { m with ram := ((List.range (vx + 1)).foldl
               (fun ram i => ram.set (m.reg.I + i) (getVxVal m i)) m.ram) }
    else none
  | .LD_Vx_I vx =>
    if m.reg.I + vx < m.ram.length then
      some ((List.range (vx + 1)).foldl
              (fun machine i => setVxVal machine i (m.ram.getD (m.reg.I + i) 0)) m)
    else none

/-- The `match` in cpu.rs `CHIP8::run` that suppresses the automatic PC
advance: `increment = false` exactly for JP, JP_V0 and CALL. -/
def autoIncrement : Instruction → Bool
  | .JP _ => false
  | .JP_V0 _ => false
  | .CALL _ => false
  | _ => true

/-- The `while` guard of cpu.rs `CHIP8::run`:
`display.is_window_open() && PC + 1 <= ram.len()`. -/
def runGuard (env : Env) (m : CHIP8) : Bool :=
  env.windowOpen && decide (m.reg.PC + 1 ≤ m.ram.length)

/-- One iteration of the loop body of cpu.rs `CHIP8::run`: fetch the two bytes
at PC and PC+1 (array indexing — out of bounds is a panic, hence `none`),
build the big-endian opcode, decode, execute, then add 2 to PC unless the
instruction was JP/JP_V0/CALL. -/
def runStep (env : Env) (m : CHIP8) : Option CHIP8 := do
  let b0 ← m.ram[m.reg.PC]?
  let b1 ← m.ram[m.reg.PC + 1]?
  let instr ← decode_instruction (b0 * 0x0100 + b1)
  let m1 ← execute env m instr
  some (if autoIncrement instr then { m1 with reg := { m1.reg with PC := m1.reg.PC + 2 } }
        else m1)

/-- Result of cpu.rs `CHIP8::load`: `Ok(())` with the mutated machine, or the
propagated `io::Error` from `File::open` / `File::read`. -/
inductive LoadResult where
  | ok (m : CHIP8)
  | ioError
  deriving Repr

/-- Whether a load succeeded. -/
def LoadResult.isOk : LoadResult → Bool
  | .ok _ => true
  | .ioError => false

/-- cpu.rs `CHIP8::load`: open the file (an unreadable cartridge, modelled as
`none`, propagates the io::Error) and `f.read(&mut self.ram[0x200..])`.
`Read::read` into a slice copies at most the slice's length
(ram.len() - 0x200 bytes, here with the full file contents available at once)
and returns Ok with the byte count — it never fails or truncates fatally when
the file is longer than the slice; the extra bytes are simply not read. -/
def CHIP8.load (m : CHIP8) (cart : Option (List Nat)) : LoadResult :=
  match cart with
  | none => .ioError
  | some bytes =>
    .ok { m with ram := m.ram.take 0x200 ++ bytes.take (m.ram.length - 0x200)
                          ++ m.ram.drop (0x200 + min bytes.length (m.ram.length - 0x200)) }

/-- main.rs `main`: build a fresh machine, load the cartridge; on Ok run the
machine, on Err print the diagnostic with `eprintln!` and fall through.
Returns whether `run` is started. -/
def mainStartsRun (cart : Option (List Nat)) : Bool :=
  (CHIP8.fresh.load cart).isOk

/-- main.rs `main`: the process exit status. `main` returns `()` on both
branches of the `match` (the Err arm only calls `eprintln!`), so the process
exits with status 0 either way. -/
def mainExitCode (cart : Option (List Nat)) : Nat :=
  match CHIP8.fresh.load cart with
  | .ok _ => 0
  | .ioError => 0

/-- Whether main.rs prints the `Could not open file` diagnostic: only on the
Err arm of the `match` on `chip8.load`. -/
def mainPrintsDiagnostic (cart : Option (List Nat)) : Bool :=
  !(CHIP8.fresh.load cart).isOk

/-- One shared timer cell (registers.rs DT or ST: an `Arc<AtomicU8>`) together
with the local state of its timer thread. The thread body
(`Registers::spawn_timer_thread`) is `if lock.load(Relaxed) != 0 {
lock.fetch_sub(1, SeqCst) }`: two separate atomic operations, so between the
load and the fetch_sub the engine may run. `observed` is the thread's value
loaded by the first operation while the decrement is still pending. -/
structure TimerCell where
  val : Nat
  observed : Option Nat
  deriving DecidableEq, Repr

/-- Atomic events on a timer cell, interleaved in some global order:
`tickLoad`/`tickSub` are the two halves of one timer-thread iteration
(the `load` and, when the loaded value was nonzero, the wrapping `fetch_sub`),
`engineSet n` is `Registers::set_dt`/`set_st` (a `fetch_update` that replaces
the value), `engineRead` is `get_dt`/`get_st` (a pure load). -/
inductive TimerEvent where
  | tickLoad
  | tickSub
  | engineSet (n : Nat)
  | engineRead
  deriving DecidableEq, Repr

/-- Small-step semantics of the timer cell under one interleaved event.
`AtomicU8::fetch_sub(1)` wraps: 0 - 1 = 255, hence `(val + 255) % 256`. -/
def timerStep (c : TimerCell) : TimerEvent → TimerCell
  | .tickLoad => { c with observed := some c.val }
  | .tickSub =>
    match c.observed with
    | some o => if o ≠ 0 then { val := (c.val + 255) % 256, observed := none }
                else { c with observed := none }
    | none => c
  | .engineSet n => { c with val := n % 256 }
  | .engineRead => c

/-- Run a sequence of interleaved timer events. -/
def timerRun (c : TimerCell) (es : List TimerEvent) : TimerCell :=
  es.foldl timerStep c

/-- One full, uninterleaved iteration of the timer thread (its load immediately
followed by its conditional decrement): the spec's "tick". -/
def timerTick (c : TimerCell) : TimerCell :=
  timerRun c [.tickLoad, .tickSub]

/-- `n` nested CALL instructions to a fixed address, executed in sequence
(each one as `execute_instruction` runs it). -/
def nestedCalls (env : Env) (addr : Nat) : Nat → CHIP8 → Option CHIP8
  | 0, m => some m
  | n + 1, m => (execute env m (.CALL addr)).bind (nestedCalls env addr n)

/-- A fixed benign environment for concrete evaluations: window open, no key
pressed, RNG returning 0, no draw collision, no key-wait result. -/
def env0 : Env :=
  { windowOpen := true, keyDown := fun _ => false, rand := 0,
    drawCollision := false, keyWait := none }

/-- A two-byte machine used to evaluate single steps on concrete inputs. -/
def mkSmall (b0 b1 : Nat) (vx : List Nat) : CHIP8 :=
  { stack := []
    ram := [b0, b1]
    reg := { PC := 0, SP := 0, I := 0, Vx := vx, DT := 0, ST := 0 } }

/-- A machine whose register 0 holds 255 and whose index register points at
address 3 of a 6-byte RAM, for exercising LD_B on a concrete input. -/
def mBCD : CHIP8 :=
  { stack := []
    ram := [0, 0, 0, 0, 0, 0]
    reg := { PC := 0, SP := 0, I := 3,
             Vx := [255, 0, 0, 0, 0, 0, 0, 0, 0, 0, 0, 0, 0, 0, 0, 0],
             DT := 0, ST := 0 } }

/-- A small machine whose call stack holds the single return address 7, for
exercising RET on a concrete nonempty stack. -/
def mRET : CHIP8 :=
  { stack := [7]
    ram := [0, 0]
    reg := { PC := 0, SP := 1, I := 0, Vx := List.replicate 16 0, DT := 0, ST := 0 } }

/-- The fresh machine steered to PC = 4094, the largest PC accepted by the
run-loop guard `PC + 1 <= ram.len()` (reachable e.g. by JP 0xFFE). -/
def mPC4094 : CHIP8 :=
  { CHIP8.fresh with reg := { CHIP8.fresh.reg with PC := 4094 } }

section Lemmas

/-- Reading back the register just written. -/
theorem getVxVal_setVxVal_self {m : CHIP8} {r : VReg} {v : Nat}
    (h : r < m.reg.Vx.length) : getVxVal (setVxVal m r v) r = v := by
  simp [getVxVal, setVxVal, List.getD_eq_getElem?_getD, List.getElem?_set_self h]

/-- Writing one register leaves the others unchanged. -/
theorem getVxVal_setVxVal_ne {m : CHIP8} {r s : VReg} {v : Nat}
    (h : r ≠ s) : getVxVal (setVxVal m r v) s = getVxVal m s := by
  simp [getVxVal, setVxVal, List.getD_eq_getElem?_getD, List.getElem?_set_ne h]

/-- Register writes preserve the register-file width. -/
theorem setVxVal_Vx_length (m : CHIP8) (r : VReg) (v : Nat) :
    (setVxVal m r v).reg.Vx.length = m.reg.Vx.length := by
  simp [setVxVal]

set_option maxRecDepth 4000 in
/-- The strict bit-0 / bit-7 tests agree with the code's
trailing-ones/leading-ones tests on every byte value. -/
theorem ones_tests_eq_bit_tests :
    ∀ x : Fin 256, (0 < u8_trailing_ones x.val ↔ x.val % 2 = 1)
      ∧ (0 < u8_leading_ones x.val ↔ x.val / 128 = 1) := by decide

end Lemmas

section ClaimC3

/-- C3: for every 8-bit register value X, SHR sets VF to bit 0 of X before
shifting and halves X, SHL sets VF to bit 7 of X before shifting and doubles X
(mod 256); the code's `trailing_ones() > 0` / `leading_ones() > 0` tests
compute exactly the strict bottom-bit and top-bit tests on every 8-bit
value. -/
theorem shr_shl_semantics (env : Env) (m : CHIP8) (r : VReg)
    (hlen : m.reg.Vx.length = 16) (hr : r < 16) (hr15 : r ≠ 0xF)
    (hv : getVxVal m r < 256) :
    (∀ x : Nat, x < 256 →
      ((0 < u8_trailing_ones x ↔ x % 2 = 1) ∧ (0 < u8_leading_ones x ↔ x / 128 = 1)))
    ∧ (∃ m', execute env m (.SHR r) = some m'
        ∧ getVxVal m' r = getVxVal m r / 2
        ∧ getVxVal m' 0xF = getVxVal m r % 2)
    ∧ (∃ m', execute env m (.SHL r) = some m'
        ∧ getVxVal m' r = getVxVal m r * 2 % 256
        ∧ getVxVal m' 0xF = getVxVal m r / 128) := by
  have hbits := fun (x : Nat) (hx : x < 256) => ones_tests_eq_bit_tests ⟨x, hx⟩
  refine ⟨hbits, ⟨_, rfl, ?_, ?_⟩, ⟨_, rfl, ?_, ?_⟩⟩
  · exact getVxVal_setVxVal_self (by simp [setVxVal_Vx_length, hlen, hr])
  · rw [getVxVal_setVxVal_ne hr15,
      getVxVal_setVxVal_self (by simp [hlen])]
    rcases Nat.mod_two_eq_zero_or_one (getVxVal m r) with h2 | h2 <;>
      rcases (hbits _ hv).1 with hb <;> simp [h2] at hb ⊢ <;> omega
  · exact getVxVal_setVxVal_self (by simp [setVxVal_Vx_length, hlen, hr])
  · rw [getVxVal_setVxVal_ne hr15,
      getVxVal_setVxVal_self (by simp [hlen])]
    have h128 : getVxVal m r / 128 = 0 ∨ getVxVal m r / 128 = 1 := by omega
    rcases h128 with h2 | h2 <;>
      rcases (hbits _ hv).2 with hb <;> simp [h2] at hb ⊢ <;> omega

/-- Witness for `shr_shl_semantics` at a concrete machine: register 1 holds
0b011, so SHR yields 0b001 with VF = 1, and SHL yields 0b110 with VF = 0. -/
theorem shr_shl_semantics_witness :
    ∃ m', execute env0 (mkSmall 0 0 [0, 3, 0, 0, 0, 0, 0, 0, 0, 0, 0, 0, 0, 0, 0, 0]) (.SHR 1)
        = some m' ∧ getVxVal m' 1 = 1 ∧ getVxVal m' 0xF = 1 := by
  obtain ⟨-, ⟨m', hm', h1, h2⟩, -⟩ :=
    shr_shl_semantics env0 (mkSmall 0 0 [0, 3, 0, 0, 0, 0, 0, 0, 0, 0, 0, 0, 0, 0, 0, 0]) 1
      (by decide) (by decide) (by decide) (by decide)
  exact ⟨m', hm', by simpa using h1, by simpa using h2⟩

end ClaimC3

section ClaimC4

/-- C4: SUB X,Y stores the 8-bit wrapping difference X−Y into X (the plain
difference when there is no borrow) and sets VF to 1 exactly when there is no
borrow (pre-wrap Y ≤ X), else 0; SUBN X,Y behaves identically to SUB with the
operands swapped, reusing the same flag polarity. -/
theorem sub_subn_semantics (env : Env) (m : CHIP8) (vx vy : VReg)
    (hlen : m.reg.Vx.length = 16) (hx : vx < 16) (hx15 : vx ≠ 0xF)
    (hvx : getVxVal m vx < 256) (hvy : getVxVal m vy < 256) :
    (∃ m', execute env m (.SUB vx vy) = some m'
      ∧ getVxVal m' vx = (getVxVal m vx + 256 - getVxVal m vy) % 256
      ∧ getVxVal m' 0xF = (if getVxVal m vy ≤ getVxVal m vx then 1 else 0)
      ∧ (getVxVal m vy ≤ getVxVal m vx →
          getVxVal m' vx = getVxVal m vx - getVxVal m vy))
    ∧ execute env m (.SUBN vx vy) = execute env m (.SUB vy vx) := by
  have hne : (0xF : Nat) ≠ vx := fun h => hx15 h.symm
  refine ⟨⟨_, rfl, ?_, ?_, ?_⟩, rfl⟩
  · show getVxVal (setVxVal (setVxVal m vx _) 0xF _) vx = _
    rw [getVxVal_setVxVal_ne hne,
      getVxVal_setVxVal_self (by simp [hlen, hx])]
  · show getVxVal (setVxVal (setVxVal m vx _) 0xF _) 0xF = _
    rw [getVxVal_setVxVal_self (by simp [setVxVal_Vx_length, hlen])]
    rcases Nat.lt_or_ge (getVxVal m vx) (getVxVal m vy) with h | h
    · rw [if_pos h, if_neg (by omega)]
    · rw [if_neg (by omega), if_pos (by omega)]
  · intro hle
    show getVxVal (setVxVal (setVxVal m vx _) 0xF _) vx = _
    rw [getVxVal_setVxVal_ne hne,
      getVxVal_setVxVal_self (by simp [hlen, hx])]
    omega

/-- Witness for `sub_subn_semantics`: SUB(5,3) → (2, VF = 1) on a concrete
machine with V0 = 5, V1 = 3. -/
theorem sub_subn_semantics_witness :
    ∃ m', execute env0 (mkSmall 0 0 [5, 3, 0, 0, 0, 0, 0, 0, 0, 0, 0, 0, 0, 0, 0, 0]) (.SUB 0 1)
        = some m' ∧ getVxVal m' 0 = 2 ∧ getVxVal m' 0xF = 1 := by
  obtain ⟨⟨m', hm', h1, h2, h3⟩, -⟩ :=
    sub_subn_semantics env0 (mkSmall 0 0 [5, 3, 0, 0, 0, 0, 0, 0, 0, 0, 0, 0, 0, 0, 0, 0]) 0 1
      (by decide) (by decide) (by decide) (by decide) (by decide)
  exact ⟨m', hm', by simpa using h3 (by decide), by simpa using h2⟩

end ClaimC4

section ClaimC10

/-- C10: when the destination register is VF itself, ADD and SUB write the
flag after the arithmetic result, so VF ends up holding the carry/borrow
flag; SHR and SHL write the flag before the shifted result, so VF ends up
holding the shifted value — opposite resolution orders. -/
theorem vf_destination_conflict (env : Env) (m : CHIP8)
    (hlen : m.reg.Vx.length = 16) :
    (∀ other : RegOrByte, ∃ m', execute env m (.ADD 0xF other) = some m'
      ∧ getVxVal m' 0xF = (if 256 ≤ getVxVal m 0xF + readOperand m other then 1 else 0))
    ∧ (∀ vy : VReg, ∃ m', execute env m (.SUB 0xF vy) = some m'
      ∧ getVxVal m' 0xF = (if getVxVal m 0xF < getVxVal m vy then 0 else 1))
    ∧ (∃ m', execute env m (.SHR 0xF) = some m'
      ∧ getVxVal m' 0xF = getVxVal m 0xF / 2)
    ∧ (∃ m', execute env m (.SHL 0xF) = some m'
      ∧ getVxVal m' 0xF = getVxVal m 0xF * 2 % 256) := by
  have h15 : (0xF : Nat) < m.reg.Vx.length := by omega
  refine ⟨fun other => ⟨_, rfl, ?_⟩, fun vy => ⟨_, rfl, ?_⟩, ⟨_, rfl, ?_⟩, ⟨_, rfl, ?_⟩⟩
  · exact getVxVal_setVxVal_self (by simpa [setVxVal_Vx_length] using h15)
  · show getVxVal (setVxVal (setVxVal m 0xF _) 0xF _) 0xF = _
    rw [getVxVal_setVxVal_self (by simpa [setVxVal_Vx_length] using h15)]
  · exact getVxVal_setVxVal_self (by simpa [setVxVal_Vx_length] using h15)
  · exact getVxVal_setVxVal_self (by simpa [setVxVal_Vx_length] using h15)

/-- Witness for `vf_destination_conflict`: with VF = 3, SHR VF leaves VF = 1
(the shifted value, not the flag) while SUB VF,V0 with V0 = 5 leaves VF = 0
(the borrow flag, not the difference). -/
theorem vf_destination_conflict_witness :
    (∃ m', execute env0 (mkSmall 0 0 [5, 0, 0, 0, 0, 0, 0, 0, 0, 0, 0, 0, 0, 0, 0, 3]) (.SHR 0xF)
      = some m' ∧ getVxVal m' 0xF = 1)
    ∧ (∃ m', execute env0 (mkSmall 0 0 [5, 0, 0, 0, 0, 0, 0, 0, 0, 0, 0, 0, 0, 0, 0, 3]) (.SUB 0xF 0)
      = some m' ∧ getVxVal m' 0xF = 0) := by
  obtain ⟨-, hsub, hshr, -⟩ :=
    vf_destination_conflict env0 (mkSmall 0 0 [5, 0, 0, 0, 0, 0, 0, 0, 0, 0, 0, 0, 0, 0, 0, 3])
      (by decide)
  obtain ⟨m1, hm1, h1⟩ := hshr
  obtain ⟨m2, hm2, h2⟩ := hsub 0
  exact ⟨⟨m1, hm1, by simpa using h1⟩, ⟨m2, hm2, by simpa using h2⟩⟩

end ClaimC10

section ClaimC8

/-- C8: LD_B decomposes the 8-bit register value X into its three decimal
digits [hundreds, tens, ones] — each digit at most 9 and
hundreds·100 + tens·10 + ones = X — and stores them at RAM addresses
index, index+1, index+2; in particular 255 → [2,5,5], 12 → [0,1,2],
8 → [0,0,8], 0 → [0,0,0]. -/
theorem ld_b_bcd_semantics (env : Env) (m : CHIP8) (r : VReg)
    (hv : getVxVal m r < 256) (hI : m.reg.I + 2 < m.ram.length) :
    ((to_bcd (getVxVal m r)).getD 0 0 * 100 + (to_bcd (getVxVal m r)).getD 1 0 * 10
        + (to_bcd (getVxVal m r)).getD 2 0 = getVxVal m r
      ∧ (to_bcd (getVxVal m r)).getD 0 0 ≤ 9
      ∧ (to_bcd (getVxVal m r)).getD 1 0 ≤ 9
      ∧ (to_bcd (getVxVal m r)).getD 2 0 ≤ 9)
    ∧ (∃ m', execute env m (.LD_B r) = some m'
        ∧ m'.ram.getD m.reg.I 0 = (to_bcd (getVxVal m r)).getD 0 0
        ∧ m'.ram.getD (m.reg.I + 1) 0 = (to_bcd (getVxVal m r)).getD 1 0
        ∧ m'.ram.getD (m.reg.I + 2) 0 = (to_bcd (getVxVal m r)).getD 2 0)
    ∧ to_bcd 255 = [2, 5, 5] ∧ to_bcd 12 = [0, 1, 2]
    ∧ to_bcd 8 = [0, 0, 8] ∧ to_bcd 0 = [0, 0, 0] := by
  have hexec : execute env m (.LD_B r) = some { m with ram :=
      (((m.ram.set m.reg.I ((to_bcd (getVxVal m r)).getD 0 0)).set (m.reg.I + 1)
        ((to_bcd (getVxVal m r)).getD 1 0)).set (m.reg.I + 2)
        ((to_bcd (getVxVal m r)).getD 2 0)) } := by
    simp only [execute]
    rw [if_pos hI]
  refine ⟨?_, ⟨_, hexec, ?_, ?_, ?_⟩, by decide, by decide, by decide, by decide⟩
  · simp only [to_bcd, List.getD_cons_zero, List.getD_cons_succ]
    omega
  · show (((m.ram.set _ _).set _ _).set _ _).getD m.reg.I 0 = _
    rw [List.getD_eq_getElem?_getD, List.getElem?_set_ne (by omega),
      List.getElem?_set_ne (by omega),
      List.getElem?_set_self (by omega)]
    simp
  · show (((m.ram.set _ _).set _ _).set _ _).getD (m.reg.I + 1) 0 = _
    rw [List.getD_eq_getElem?_getD, List.getElem?_set_ne (by omega),
      List.getElem?_set_self (by simp; omega)]
    simp
  · show (((m.ram.set _ _).set _ _).set _ _).getD (m.reg.I + 2) 0 = _
    rw [List.getD_eq_getElem?_getD,
      List.getElem?_set_self (by simp; omega)]
    simp

/-- Witness for `ld_b_bcd_semantics`: on `mBCD` the three digits 2, 5, 5 of
255 land at addresses 3, 4, 5. -/
theorem ld_b_bcd_semantics_witness :
    ∃ m', execute env0 mBCD (.LD_B 0) = some m'
      ∧ m'.ram.getD 3 0 = 2 ∧ m'.ram.getD 4 0 = 5 ∧ m'.ram.getD 5 0 = 5 := by
  obtain ⟨-, ⟨m', hm', h0, h1, h2⟩, -⟩ :=
    ld_b_bcd_semantics env0 mBCD 0 (by decide) (by decide)
  exact ⟨m', hm', by simpa using h0, by simpa using h1, by simpa using h2⟩

end ClaimC8

section ClaimC5

set_option maxHeartbeats 1000000 in
/-- C5: decoding a 16-bit opcode is fatal exactly for the unrecognized
combinations of the further-dispatched families — high nibble 0x8 with a low
nibble other than 0x0–0x7/0xE, high nibble 0xE with a low byte other than
0x9E/0xA1, and high nibble 0xF with a low byte other than the nine recognized
values; every other opcode (including all of family 0x0, where SYS is the
catch-all) decodes to a tagged instruction, and decoding is a pure function
with no side effects. -/
theorem decode_totality (b : Nat) (hb : b < 65536) :
    (decode_instruction b).isNone ↔
      ((get_first b = 0x8 ∧ ¬(get_nibble b = 0x0 ∨ get_nibble b = 0x1
          ∨ get_nibble b = 0x2 ∨ get_nibble b = 0x3 ∨ get_nibble b = 0x4
          ∨ get_nibble b = 0x5 ∨ get_nibble b = 0x6 ∨ get_nibble b = 0x7
          ∨ get_nibble b = 0xE))
        ∨ (get_first b = 0xE ∧ ¬(get_byte b = 0x9E ∨ get_byte b = 0xA1))
        ∨ (get_first b = 0xF ∧ ¬(get_byte b = 0x07 ∨ get_byte b = 0x0A
          ∨ get_byte b = 0x15 ∨ get_byte b = 0x18 ∨ get_byte b = 0x1E
          ∨ get_byte b = 0x29 ∨ get_byte b = 0x33 ∨ get_byte b = 0x55
          ∨ get_byte b = 0x65))) := by
  have h16 : get_first b = 0 ∨ get_first b = 1 ∨ get_first b = 2 ∨ get_first b = 3
      ∨ get_first b = 4 ∨ get_first b = 5 ∨ get_first b = 6 ∨ get_first b = 7
      ∨ get_first b = 8 ∨ get_first b = 9 ∨ get_first b = 10 ∨ get_first b = 11
      ∨ get_first b = 12 ∨ get_first b = 13 ∨ get_first b = 14 ∨ get_first b = 15 := by
    unfold get_first
    omega
  rcases h16 with h|h|h|h|h|h|h|h|h|h|h|h|h|h|h|h <;>
    simp only [decode_instruction, h, reduceIte, Option.isNone_some, Option.isNone_none] <;>
    try simp [h]
  all_goals split_ifs <;> simp_all

/-- Witness for `decode_totality` at the concrete opcodes 0x1234 (decodes to
JP 0x234) and 0x800F (family 0x8 with unrecognized low nibble, fatal). -/
theorem decode_totality_witness :
    (((decode_instruction 0x1234).isNone ↔
      ((get_first 0x1234 = 0x8 ∧ ¬(get_nibble 0x1234 = 0x0 ∨ get_nibble 0x1234 = 0x1
          ∨ get_nibble 0x1234 = 0x2 ∨ get_nibble 0x1234 = 0x3 ∨ get_nibble 0x1234 = 0x4
          ∨ get_nibble 0x1234 = 0x5 ∨ get_nibble 0x1234 = 0x6 ∨ get_nibble 0x1234 = 0x7
          ∨ get_nibble 0x1234 = 0xE))
        ∨ (get_first 0x1234 = 0xE ∧ ¬(get_byte 0x1234 = 0x9E ∨ get_byte 0x1234 = 0xA1))
        ∨ (get_first 0x1234 = 0xF ∧ ¬(get_byte 0x1234 = 0x07 ∨ get_byte 0x1234 = 0x0A
          ∨ get_byte 0x1234 = 0x15 ∨ get_byte 0x1234 = 0x18 ∨ get_byte 0x1234 = 0x1E
          ∨ get_byte 0x1234 = 0x29 ∨ get_byte 0x1234 = 0x33 ∨ get_byte 0x1234 = 0x55
          ∨ get_byte 0x1234 = 0x65))))
    ∧ decode_instruction 0x1234 = some (.JP 0x234))
    ∧ decode_instruction 0x800F = none := by
  exact ⟨⟨decode_totality 0x1234 (by decide), by decide⟩, by decide⟩

end ClaimC5

section ClaimC6

/-- C6: one iteration of the run loop advances PC by exactly 2 after the
instruction's own effect — except for JP, JP_V0 and CALL, which set PC
explicitly and receive no automatic advance; the match in `run` suppresses the
advance for exactly those three instruction shapes. -/
theorem pc_discipline (env : Env) (m m1 : CHIP8) (i : Instruction) (b0 b1 : Nat)
    (h0 : m.ram[m.reg.PC]? = some b0) (h1 : m.ram[m.reg.PC + 1]? = some b1)
    (hd : decode_instruction (b0 * 0x0100 + b1) = some i)
    (he : execute env m i = some m1) :
    runStep env m = some (if autoIncrement i
        then { m1 with reg := { m1.reg with PC := m1.reg.PC + 2 } } else m1)
    ∧ (autoIncrement i = false ↔
        ((∃ a, i = .JP a) ∨ (∃ a, i = .JP_V0 a) ∨ (∃ a, i = .CALL a)))
    ∧ (∀ a, ∃ mj, execute env m (.JP a) = some mj ∧ mj.reg.PC = a)
    ∧ (∀ a, ∃ mj, execute env m (.JP_V0 a) = some mj ∧ mj.reg.PC = a + getVxVal m 0)
    ∧ (∀ a, ∃ mj, execute env m (.CALL a) = some mj ∧ mj.reg.PC = a) := by
  refine ⟨?_, ?_, fun a => ⟨_, rfl, rfl⟩, fun a => ⟨_, rfl, rfl⟩, fun a => ⟨_, rfl, rfl⟩⟩
  · simp [runStep, h0, h1, hd, he]
  · cases i <;> simp [autoIncrement]

/-- Witness for `pc_discipline`: a machine whose RAM holds the opcode 0x1234;
the decoded JP 0x234 sets PC to 0x234 and the loop adds no further 2. -/
theorem pc_discipline_witness :
    (runStep env0 (mkSmall 0x12 0x34 (List.replicate 16 0))).map (fun mm => mm.reg.PC)
      = some 0x234 := by
  have h := pc_discipline env0 (mkSmall 0x12 0x34 (List.replicate 16 0)) _ (.JP 0x234)
    0x12 0x34 rfl rfl (by decide) rfl
  rw [h.1]
  rfl

end ClaimC6

section ClaimC1

/-- C1 (amended): from a fresh machine 16 nested CALLs succeed — each CALL
pushes the current PC and increments SP — but the 17th CALL is NOT fatal: the
Vec-backed stack has no fullness check (`with_capacity(16)` only preallocates)
and the 17th push also succeeds, reaching SP = 17 and stack depth 17. RET on
an empty stack is fatal, and RET on a nonempty stack pops the saved address
into PC and decrements SP (u8-wrapping). -/
theorem call_stack_discipline (env : Env) :
    (∃ m16, nestedCalls env 0x300 16 CHIP8.fresh = some m16
      ∧ m16.reg.SP = 16 ∧ m16.stack.length = 16
      ∧ (∃ m17, execute env m16 (.CALL 0x300) = some m17
          ∧ m17.reg.SP = 17 ∧ m17.stack.length = 17))
    ∧ (∀ (m : CHIP8) (addr : Nat), execute env m (.CALL addr)
        = some { m with stack := m.reg.PC % 65536 :: m.stack,
                        reg := { m.reg with SP := (m.reg.SP + 1) % 256, PC := addr } })
    ∧ (∀ m : CHIP8, m.stack = [] → execute env m .RET = none)
    ∧ (∀ (m : CHIP8) (p : Nat) (rest : List Nat), m.stack = p :: rest →
        execute env m .RET = some { m with stack := rest, reg := { m.reg with PC := p, SP := (m.reg.SP + 255) % 256 } }) := by
  refine ⟨⟨_, rfl, rfl, rfl, _, rfl, rfl, rfl⟩, fun m addr => rfl, ?_, ?_⟩
  · intro m h
    obtain ⟨st, ram, reg⟩ := m
    change st = [] at h
    subst h
    rfl
  · intro m p rest h
    obtain ⟨st, ram, reg⟩ := m
    change st = p :: rest at h
    subst h
    rfl

/-- Witness for `call_stack_discipline`: RET on the fresh (empty-stack)
machine is fatal, and RET on `mRET` pops 7 into PC and wraps SP from 1
down to 0. -/
theorem call_stack_discipline_witness :
    execute env0 CHIP8.fresh .RET = none
    ∧ execute env0 mRET .RET
        = some { mRET with stack := [], reg := { mRET.reg with PC := 7, SP := 0 } } := by
  exact ⟨(call_stack_discipline env0).2.2.1 CHIP8.fresh rfl,
    (call_stack_discipline env0).2.2.2 mRET 7 [] rfl⟩

/-- Counterexample to C1 as stated: the 17th nested CALL from a fresh machine
is not fatal — it succeeds, leaving SP = 17 and 17 saved addresses. -/
theorem call_stack_17th_counterexample :
    (nestedCalls env0 0x300 17 CHIP8.fresh).map (fun m => (m.reg.SP, m.stack.length))
      = some (17, 17) := by
  rfl

end ClaimC1

section ClaimC7

/-- C7 (code bug): one uninterrupted tick of the timer thread decrements a
nonzero counter by one and leaves a zero counter unchanged — but the thread's
tick is two separate atomic operations (a `load` deciding, then a `fetch_sub`
acting). Interleaving the engine's `set_dt(0)` between the two drives the
counter from 1 to 255: the wrapping `fetch_sub` fires on a counter that is
already 0, i.e. the value goes below 0 (mod 256) and increases without a set,
contradicting the claimed floor at 0 and monotonicity between sets. -/
theorem timer_tick_race :
    timerTick { val := 5, observed := none } = { val := 4, observed := none }
    ∧ timerTick { val := 0, observed := none } = { val := 0, observed := none }
    ∧ timerRun { val := 1, observed := none } [.tickLoad, .engineSet 0, .tickSub]
        = { val := 255, observed := none } := by
  decide

end ClaimC7

section ClaimC2

/-- The sprite table occupies 80 bytes. -/
theorem SPRITES_length : SPRITES.length = 80 := rfl

/-- The fresh machine's RAM is 0xFFF = 4095 bytes, like `[u8; 0xFFF]`. -/
theorem fresh_ram_length : CHIP8.fresh.ram.length = 4095 := by
  show (SPRITES ++ List.replicate (0xFFF - 80) 0).length = 4095
  rw [List.length_append, SPRITES_length, List.length_replicate]

/-- C2 (code bug): at PC = 4094 the run loop's guard holds (the display
reports running and PC + 1 = 4095 ≤ 4095, the memory length), yet the fetch
of the second byte indexes `ram[4095]` in the 4095-byte array (valid indices
0..=4094): the fetch is out of bounds and the cycle faults instead of
halting. -/
theorem run_guard_off_by_one :
    runGuard env0 mPC4094 = true
    ∧ mPC4094.ram[mPC4094.reg.PC + 1]? = none
    ∧ runStep env0 mPC4094 = none := by
  have hram : mPC4094.ram = CHIP8.fresh.ram := rfl
  have hPC : mPC4094.reg.PC = 4094 := rfl
  have hlen : mPC4094.ram.length = 4095 := by rw [hram, fresh_ram_length]
  have h1 : mPC4094.ram[mPC4094.reg.PC + 1]? = none := by
    apply List.getElem?_eq_none
    rw [hlen, hPC]
  have h0 : mPC4094.ram[mPC4094.reg.PC]? = some 0 := by
    rw [hPC, hram]
    show (SPRITES ++ List.replicate (0xFFF - 80) 0)[(4094 : Nat)]? = some 0
    rw [List.getElem?_append_right (by rw [SPRITES_length]; omega), SPRITES_length]
    rw [List.getElem?_replicate]
    norm_num
  refine ⟨?_, h1, ?_⟩
  · rw [runGuard, hlen, hPC]
    rfl
  · rw [runStep]
    rw [h0, h1]
    rfl

end ClaimC2

section ClaimC9

/-- The fresh machine's RAM holds zero everywhere above the 80-byte sprite
table (and `getD` defaults to zero past the end). -/
theorem fresh_ram_zero (i : Nat) (hi : 80 ≤ i) : CHIP8.fresh.ram.getD i 0 = 0 := by
  show (SPRITES ++ List.replicate (0xFFF - 80) 0).getD i 0 = 0
  rw [List.getD_eq_getElem?_getD,
    List.getElem?_append_right (by rw [SPRITES_length]; exact hi)]
  rw [List.getElem?_replicate]
  split <;> rfl

/-- C9 (amended): loading never fails on size — an oversized cartridge is
silently truncated to the 3583 bytes of RAM above 0x200 (`Read::read` copies
at most the slice length and returns Ok) — an undersized cartridge leaves all
remaining memory bytes zero, and an unreadable cartridge file propagates the
io error so that main prints a diagnostic and never starts execution, though
the process still exits with status 0 (main returns unit on both branches). -/
theorem load_semantics (cart : List Nat) :
    (∃ m', CHIP8.fresh.load (some cart) = .ok m'
      ∧ m'.ram.length = 0xFFF
      ∧ (∀ i, i < min cart.length (0xFFF - 0x200) → m'.ram[0x200 + i]? = cart[i]?)
      ∧ (∀ i, 0x200 + cart.length ≤ i → m'.ram.getD i 0 = 0))
    ∧ CHIP8.fresh.load none = .ioError
    ∧ mainStartsRun none = false
    ∧ mainPrintsDiagnostic none = true
    ∧ mainExitCode none = 0 := by
  have hflen := fresh_ram_length
  have hA : (CHIP8.fresh.ram.take 0x200).length = 0x200 := by
    rw [List.length_take, hflen]
    omega
  have hB : (cart.take (CHIP8.fresh.ram.length - 0x200)).length
      = min cart.length 3583 := by
    rw [List.length_take, hflen]
    omega
  have hAB : (CHIP8.fresh.ram.take 0x200
      ++ cart.take (CHIP8.fresh.ram.length - 0x200)).length
      = 0x200 + min cart.length 3583 := by
    rw [List.length_append, hA, hB]
  refine ⟨⟨_, rfl, ?_, ?_, ?_⟩, rfl, rfl, rfl, rfl⟩
  · simp only [List.length_append, List.length_take, List.length_drop, hflen]
    omega
  · intro i hi
    rw [List.getElem?_append_left (by rw [hAB]; omega),
      List.getElem?_append_right (by rw [hA]; omega), hA]
    have h1 : 0x200 + i - 0x200 = i := by omega
    rw [h1, List.getElem?_take,
      if_pos (show i < CHIP8.fresh.ram.length - 0x200 by rw [hflen]; omega)]
  · intro i hi
    rcases Nat.lt_or_ge i 4095 with hlt | hge
    · have hcl : cart.length ≤ 3583 := by omega
      rw [List.getD_eq_getElem?_getD,
        List.getElem?_append_right (by rw [hAB]; omega), hAB,
        List.getElem?_drop]
      have hidx : 0x200 + min cart.length (CHIP8.fresh.ram.length - 0x200)
          + (i - (0x200 + min cart.length 3583)) = i := by
        rw [hflen]
        omega
      rw [hidx]
      have hz := fresh_ram_zero i (by omega)
      rwa [List.getD_eq_getElem?_getD] at hz
    · rw [List.getD_eq_getElem?_getD, List.getElem?_eq_none]
      · rfl
      · simp only [List.length_append, List.length_take, List.length_drop, hflen]
        omega

/-- Witness for `load_semantics`: loading the one-byte cartridge [9] puts 9 at
address 0x200 and leaves address 0x201 zero; an unreadable file yields the io
error without starting run, with exit status 0. -/
theorem load_semantics_witness :
    (∃ m', CHIP8.fresh.load (some [9]) = .ok m'
      ∧ m'.ram[0x200]? = some 9 ∧ m'.ram.getD 0x201 0 = 0)
    ∧ mainStartsRun none = false ∧ mainExitCode none = 0 := by
  obtain ⟨⟨m', hok, hlen, hcopy, hzero⟩, -, hrun, -, hexit⟩ := load_semantics [9]
  exact ⟨⟨m', hok, by simpa using hcopy 0 (by decide), hzero 0x201 (by decide)⟩, hrun, hexit⟩

/-- Counterexample to C9 as stated: a 3584-byte cartridge is larger than the
3583-byte region above 0x200, yet loading it succeeds — the code silently
truncates instead of failing. -/
theorem load_oversized_counterexample :
    (CHIP8.fresh.load (some (List.replicate 3584 7))).isOk = true := rfl

end ClaimC9

end Chip8
